import Mathlib

/-!
Shallow embedding of `src/utils/wrapper.py` (class `TrainingWrapper`):
the segment sampler `random_segment` and the loss assembler `compute_loss`
of the whisper-guided voice-conversion training wrapper.

Modelling choices:
* numpy/torch tensors over a batch of size `B` are functions `Fin B → _`;
  an audio row is a `List ℝ` so that python slicing `n[s : s + seglen]`
  is `(List.drop s).take seglen`.
* `np.random.randint(high)` (array `high`, no explicit `low`) draws each
  entry from the half-open range `[0, high_i)` and raises `ValueError` when
  any `high_i ≤ 0`; it is modelled by an oracle `u : Fin B → ℕ` reduced
  modulo `high_i`, wrapped in `Option` (`none` = the raised error).
* `torch.rand_like(x)` keeps the dtype of `x`; uniform sampling is not
  implemented for integer dtypes, so for `int64` inputs it raises.  It is
  modelled by `rand_like`, returning `Except`.  Sampled floats and the
  `null_prob` configuration value are rationals (floats are rationals),
  which keeps the dropout comparison decidable.
* real-valued arithmetic (`sigmoid`, `log`, the L2 norm) is over `ℝ`.
-/

namespace WGVC

/-- Torch dtypes relevant to the wrapper: `speeches` is float32, the
documented `sid` interface is `torch.long` (int64). -/
inductive DType where
  | float32 : DType
  | int64 : DType

/-- Model of `np.random.randint(highs)` with a vector `highs`: raises (returns
`none`) when any bound is nonpositive, otherwise draws each entry from
`[0, highs i)`; the draw is the oracle value `u i` reduced mod the bound. -/
def np_randint (B : Nat) (highs : Fin B → Int) (u : Fin B → Nat) :
    Option (Fin B → Nat) :=
  if ∀ i, 0 < highs i then some (fun i => u i % (highs i).toNat) else none

/-- Python slice `n[s : s + seglen]` of an audio row. -/
def window (seglen : Nat) (n : List ℝ) (s : Nat) : List ℝ :=
  (n.drop s).take seglen

/-- Model of `TrainingWrapper.random_segment`: draw `start = np.random.randint(lengths
- seglen)` and stack the windows `n[s : s + seglen]`. -/
def random_segment (seglen : Nat) (B : Nat) (speeches : Fin B → List ℝ)
    (lengths : Fin B → Int) (u : Fin B → Nat) : Option (Fin B → List ℝ) :=
  (np_randint B (fun i => lengths i - (seglen : Int)) u).map
    (fun starts => fun i => window seglen (speeches i) (starts i))

/-- All batches that `random_segment` can return, over every random draw. -/
def random_segment_support (seglen : Nat) (B : Nat)
    (speeches : Fin B → List ℝ) (lengths : Fin B → Int) :
    Set (Fin B → List ℝ) :=
  {out | ∃ u, random_segment seglen B speeches lengths u = some out}

/-- Model of `torch.rand_like`: succeeds (returning the uniform draws) only for
floating dtypes; torch has no uniform sampler for integer dtypes. -/
def rand_like (B : Nat) (dtype : DType) (u : Fin B → ℚ) :
    Except String (Fin B → ℚ) :=
  match dtype with
  | .float32 => .ok u
  | .int64 => .error "rand_like: uniform sampling is not implemented for integer dtypes"

/-- Model of `torch.sigmoid`. -/
noncomputable def sigmoid (x : ℝ) : ℝ := 1 / (1 + Real.exp (-x))

/-- Euclidean norm of an embedding row. -/
noncomputable def l2norm {E : Nat} (v : Fin E → ℝ) : ℝ :=
  Real.sqrt (∑ j, v j ^ 2)

/-- Model of `F.normalize(·, dim=-1)`: divide the row by `max(norm, 1e-12)`. -/
noncomputable def normalize_row {E : Nat} (v : Fin E → ℝ) : Fin E → ℝ :=
  fun j => v j / max (l2norm v) (1e-12 : ℝ)

/-- The external collaborators of the wrapper (`self.model`): forward
diffusion kernel, speaker-embedding table, null-speaker embedding,
denoiser, and the `(1+S)`-length log-SNR vector of the learned schedule
(the scheduler takes no batch-dependent arguments). -/
structure VCModel (B L E S : Nat) where
  diffusion : (Fin B → Fin L → ℝ) → (Fin B → Nat) →
    (Fin B → Fin L → ℝ) × (Fin B → ℝ)
  spkembed : Int → Fin E → ℝ
  nullspk : Fin E → ℝ
  denoise : (Fin B → Fin L → ℝ) → (Fin B → Fin E → ℝ) → (Fin B → Nat) →
    Fin B → Fin L → ℝ
  logsnr : Fin (S + 1) → ℝ

/-- Lines 61–66 of the wrapper: speaker lookup, guidance dropout
(`rand < null_prob` selects the null embedding), then row normalization. -/
noncomputable def processed_spkembed {B L E S : Nat} (M : VCModel B L E S)
    (null_prob : ℚ) (sid : Fin B → Int) (u : Fin B → ℚ) :
    Fin B → Fin E → ℝ :=
  fun i => normalize_row (if u i < null_prob then M.nullspk else M.spkembed (sid i))

/-- Line 70: `(base - denoised).abs().mean()`, the mean over all `B·L`
elements. -/
noncomputable def noise_estim_loss (B L : Nat)
    (base denoised : Fin B → Fin L → ℝ) : ℝ :=
  (∑ i, ∑ j, |base i j - denoised i j|) / ((B : ℝ) * (L : ℝ))

/-- Lines 77–79: `log(clamp_min(1 - alphas_bar[-1], 1e-7)) +
log(clamp_min(alphas_bar[0], 1e-7))`. -/
noncomputable def schedule_loss_of (abFirst abLast : ℝ) : ℝ :=
  Real.log (max (1 - abLast) (1e-7 : ℝ)) + Real.log (max abFirst (1e-7 : ℝ))

/-- The data `compute_loss` returns: the scalar loss, the two logged
sub-losses, and the detached diagnostics (`base`, `denoised`,
`alphas-bar`). -/
structure LossOutput (B L S : Nat) where
  loss : ℝ
  noise_estim : ℝ
  schedule_loss : ℝ
  base : Fin B → Fin L → ℝ
  denoised : Fin B → Fin L → ℝ
  alphas_bar : Fin (S + 1) → ℝ

/-- Model of `TrainingWrapper.compute_loss`.  Randomness is passed as oracles:
`stepsU` for `torch.randint(steps, (bsize,))` (reduced mod `nsteps`),
`eps` for `torch.randn_like`, `udraw` for `torch.rand_like(sid)`.  The
mask draw inherits `sid`'s dtype, so it fails for the documented
`torch.long` speaker-id vector. -/
noncomputable def compute_loss {B L E S : Nat} (M : VCModel B L E S)
    (nsteps : Nat) (null_prob : ℚ) (sid_dtype : DType) (sid : Fin B → Int)
    (speeches : Fin B → Fin L → ℝ) (stepsU : Fin B → Nat)
    (eps : Fin B → Fin L → ℝ) (udraw : Fin B → ℚ) :
    Except String (LossOutput B L S) :=
  let steps : Fin B → Nat := fun i => stepsU i % nsteps
  let bd := M.diffusion speeches steps
  let base : Fin B → Fin L → ℝ := fun i j => bd.1 i j + eps i j * bd.2 i
  match rand_like B sid_dtype udraw with
  | .error e => .error e
  | .ok u =>
    let spk := processed_spkembed M null_prob sid u
    let denoised := M.denoise speeches spk steps
    let noise_estim := noise_estim_loss B L base denoised
    let ab : Fin (S + 1) → ℝ := fun k => sigmoid (M.logsnr k)
    let schedule_loss := schedule_loss_of (ab 0) (ab (Fin.last S))
    .ok ⟨noise_estim - schedule_loss, noise_estim, schedule_loss, base, denoised, ab⟩

/-- A concrete all-zero model instance, used for concrete evaluations. -/
noncomputable def zeroModel : VCModel 1 1 1 0 :=
  ⟨fun _ _ => (fun _ _ => 0, fun _ => 0), fun _ _ => 0, fun _ => 0,
    fun _ _ _ => fun _ _ => 0, fun _ => 0⟩

/-- Lemma: `np.random.randint` raises when any entry of the bound vector is
nonpositive. -/
theorem np_randint_nonpositive_none {B : Nat} (highs : Fin B → Int)
    (u : Fin B → Nat) (h : ∃ i, highs i ≤ 0) :
    np_randint B highs u = none := by
  obtain ⟨i, hi⟩ := h
  unfold np_randint
  rw [if_neg]
  intro hall
  exact absurd (hall i) (by omega)

/-- Claim C9: if any row has `lengths[i] < seglen`, `random_segment` fails
(the negative sampling bound makes the randint call raise) and yields no
output batch. -/
theorem random_segment_short_length_fails {B : Nat} (seglen : Nat)
    (speeches : Fin B → List ℝ) (lengths : Fin B → Int) (u : Fin B → Nat)
    (h : ∃ i, lengths i < (seglen : Int)) :
    random_segment seglen B speeches lengths u = none := by
  obtain ⟨i, hi⟩ := h
  unfold random_segment
  rw [np_randint_nonpositive_none _ u ⟨i, by omega⟩]
  rfl

/-- Witness for C9: a one-row batch of length 1 with `seglen = 2` fails. -/
theorem random_segment_short_length_fails_witness :
    random_segment 2 1 (fun _ => [(0 : ℝ)]) (fun _ => 1) (fun _ => 0) = none :=
  random_segment_short_length_fails 2 (fun _ => [(0 : ℝ)]) (fun _ => 1)
    (fun _ => 0) ⟨0, by norm_num⟩

/-- Counterexample to C4 as stated: with `lengths[0] == seglen == 2` the
call does not complete normally with the truncated input — the empty
randint range raises, so no batch is returned. -/
theorem random_segment_equal_length_counterexample :
    random_segment 2 1 (fun _ => [(1 : ℝ), 2]) (fun _ => 2) (fun _ => 0)
      ≠ some (fun _ => [(1 : ℝ), 2]) := by
  have hnone : random_segment 2 1 (fun _ => [(1 : ℝ), 2]) (fun _ => 2)
      (fun _ => 0) = none := by
    unfold random_segment
    rw [np_randint_nonpositive_none _ _ ⟨0, by norm_num⟩]
    rfl
  rw [hnone]
  simp

/-- Claim C4, amended: when `lengths[i] == seglen` for some row, the
sampling range `[0, lengths[i] - seglen)` is empty, so `random_segment`
raises and returns no output (rather than deterministically using
`start[i] = 0`). -/
theorem random_segment_equal_length_none {B : Nat} (seglen : Nat)
    (speeches : Fin B → List ℝ) (lengths : Fin B → Int) (u : Fin B → Nat)
    (h : ∃ i, lengths i = (seglen : Int)) :
    random_segment seglen B speeches lengths u = none := by
  obtain ⟨i, hi⟩ := h
  unfold random_segment
  rw [np_randint_nonpositive_none _ u ⟨i, by omega⟩]
  rfl

/-- Witness for the amended C4: a three-sample row with `seglen = 3`. -/
theorem random_segment_equal_length_none_witness :
    random_segment 3 1 (fun _ => [(5 : ℝ), 6, 7]) (fun _ => 3) (fun _ => 0)
      = none :=
  random_segment_equal_length_none 3 (fun _ => [(5 : ℝ), 6, 7]) (fun _ => 3)
    (fun _ => 0) ⟨0, by norm_num⟩

/-- Counterexample to C3 as stated: for a row of length 3 with
`seglen = 2`, the upper endpoint `start = lengths - seglen = 1` (window
`[20, 30]`) has probability zero — no random draw can produce it. -/
theorem random_segment_upper_endpoint_excluded :
    (fun _ : Fin 1 => [(20 : ℝ), 30]) ∉
      random_segment_support 2 1 (fun _ => [10, 20, 30]) (fun _ => 3) := by
  intro hmem
  obtain ⟨u, h⟩ := hmem
  unfold random_segment np_randint at h
  rw [if_pos] at h
  · simp only [Option.map_some'] at h
    have h2 := congrFun (Option.some.inj h) 0
    have ht : (((3 : Int) - ((2 : Nat) : Int)).toNat) = 1 := by decide
    rw [ht, Nat.mod_one] at h2
    simp only [window, List.drop_zero] at h2
    norm_num at h2
  · intro i
    norm_num

/-- Claim C3, amended: under the precondition `lengths[i] > seglen`
(strict), `random_segment` draws `start[i]` from the half-open integer
range `[0, lengths[i] - seglen)` — the upper endpoint
`lengths[i] - seglen` is excluded — every value of that half-open range is
attainable by some draw, and output row `i` is the verbatim contiguous
sub-window `[start[i], start[i] + seglen)` of input row `i`. -/
theorem random_segment_exclusive_range {B : Nat} (seglen : Nat)
    (speeches : Fin B → List ℝ) (lengths : Fin B → Int) (u : Fin B → Nat)
    (hpre : ∀ i, (seglen : Int) < lengths i) :
    random_segment seglen B speeches lengths u
      = some (fun i => window seglen (speeches i)
          (u i % (lengths i - (seglen : Int)).toNat))
    ∧ (∀ i, ((u i % (lengths i - (seglen : Int)).toNat : Nat) : Int)
          < lengths i - (seglen : Int))
    ∧ (∀ i, ∀ s : Nat, (s : Int) < lengths i - (seglen : Int) →
        ∃ u' : Fin B → Nat, ∃ g : Fin B → List ℝ,
          random_segment seglen B speeches lengths u' = some g
          ∧ g i = window seglen (speeches i) s) := by
  have hall : ∀ j, 0 < lengths j - (seglen : Int) := by
    intro j
    have := hpre j
    omega
  refine ⟨?_, ?_, ?_⟩
  · unfold random_segment np_randint
    rw [if_pos hall]
    rfl
  · intro i
    have h0 := hall i
    have hn : 0 < (lengths i - (seglen : Int)).toNat := by omega
    have hm := Nat.mod_lt (u i) hn
    omega
  · intro i s hs
    refine ⟨fun _ => s,
      fun j => window seglen (speeches j) (s % (lengths j - (seglen : Int)).toNat),
      ?_, ?_⟩
    · unfold random_segment np_randint
      rw [if_pos hall]
      rfl
    · have h0 := hall i
      have hlt : s < (lengths i - (seglen : Int)).toNat := by omega
      show window seglen (speeches i) (s % (lengths i - (seglen : Int)).toNat)
        = window seglen (speeches i) s
      rw [Nat.mod_eq_of_lt hlt]

/-- Witness for the amended C3: length-3 row, `seglen = 1`, draw 5; the
start offset is `5 mod 2 = 1` and the returned row is `[8]`. -/
theorem random_segment_exclusive_range_witness :
    random_segment 1 1 (fun _ => [(7 : ℝ), 8, 9]) (fun _ => 3) (fun _ => 5)
      = some (fun _ => [(8 : ℝ)]) := by
  have h := (random_segment_exclusive_range 1 (fun _ : Fin 1 => [(7 : ℝ), 8, 9])
    (fun _ => 3) (fun _ => 5) (fun i => by norm_num)).1
  rw [h]
  congr 1

/-- Claim C1: on the branch where the guidance-dropout draw succeeds
(floating-dtype `sid`), the scalar loss that `compute_loss` returns equals
the noise-estimation loss minus the schedule-boundary loss (subtraction,
not addition), where the noise-estimation loss is the mean absolute
difference between the returned `base` and `denoised` diagnostics over
all elements and batch rows. -/
theorem compute_loss_subtractive_combination {B L E S : Nat}
    (M : VCModel B L E S) (nsteps : Nat) (null_prob : ℚ) (sid : Fin B → Int)
    (speeches : Fin B → Fin L → ℝ) (stepsU : Fin B → Nat)
    (eps : Fin B → Fin L → ℝ) (udraw : Fin B → ℚ) :
    ∃ out : LossOutput B L S,
      compute_loss M nsteps null_prob DType.float32 sid speeches stepsU eps udraw
        = Except.ok out
      ∧ out.loss = noise_estim_loss B L out.base out.denoised - out.schedule_loss
      ∧ out.noise_estim = noise_estim_loss B L out.base out.denoised
      ∧ noise_estim_loss B L out.base out.denoised
          = (∑ i, ∑ j, |out.base i j - out.denoised i j|) / ((B : ℝ) * (L : ℝ)) :=
  ⟨_, rfl, rfl, rfl, rfl⟩

/-- Claim C2: on the branch where the guidance-dropout draw succeeds, the
schedule-boundary loss of `compute_loss` equals
`log(clamp_min(1 - alphas_bar[last], 1e-7)) + log(clamp_min(alphas_bar[first], 1e-7))`
where `alphas_bar = sigmoid(logsnr)` and `logsnr` is the `(1+S)`-length
vector of the schedule collaborator, which takes no batch-dependent
arguments. -/
theorem compute_loss_schedule_boundary_term {B L E S : Nat}
    (M : VCModel B L E S) (nsteps : Nat) (null_prob : ℚ) (sid : Fin B → Int)
    (speeches : Fin B → Fin L → ℝ) (stepsU : Fin B → Nat)
    (eps : Fin B → Fin L → ℝ) (udraw : Fin B → ℚ) :
    ∃ out : LossOutput B L S,
      compute_loss M nsteps null_prob DType.float32 sid speeches stepsU eps udraw
        = Except.ok out
      ∧ out.alphas_bar = (fun k => sigmoid (M.logsnr k))
      ∧ out.schedule_loss
          = Real.log (max (1 - sigmoid (M.logsnr (Fin.last S))) (1e-7 : ℝ))
            + Real.log (max (sigmoid (M.logsnr 0)) (1e-7 : ℝ)) :=
  ⟨_, rfl, rfl, rfl⟩

/-- Claim C10: for a speaker-id vector of the documented integer dtype
(`torch.long`), `compute_loss` fails at the guidance-dropout mask draw
(`torch.rand_like(sid)` inherits the integer dtype, for which uniform
sampling is not defined) and never returns a loss. -/
theorem compute_loss_integer_dtype_error {B L E S : Nat}
    (M : VCModel B L E S) (nsteps : Nat) (null_prob : ℚ) (sid : Fin B → Int)
    (speeches : Fin B → Fin L → ℝ) (stepsU : Fin B → Nat)
    (eps : Fin B → Fin L → ℝ) (udraw : Fin B → ℚ) :
    compute_loss M nsteps null_prob DType.int64 sid speeches stepsU eps udraw
      = Except.error "rand_like: uniform sampling is not implemented for integer dtypes" :=
  rfl

/-- Claim C8: for every `base` and `denoised` of matching shape, the
noise-estimation loss is non-negative, and it is zero when `denoised`
equals `base` elementwise. -/
theorem noise_estim_loss_nonneg_and_zero (B L : Nat)
    (base denoised : Fin B → Fin L → ℝ) :
    0 ≤ noise_estim_loss B L base denoised
    ∧ (denoised = base → noise_estim_loss B L base denoised = 0) := by
  constructor
  · unfold noise_estim_loss
    apply div_nonneg
    · exact Finset.sum_nonneg fun i _ =>
        Finset.sum_nonneg fun j _ => abs_nonneg _
    · positivity
  · intro h
    subst h
    unfold noise_estim_loss
    simp

/-- Witness for C8 at a concrete input: equal tensors give loss zero. -/
theorem noise_estim_loss_nonneg_and_zero_witness :
    noise_estim_loss 1 1 (fun _ _ => (2 : ℝ)) (fun _ _ => (2 : ℝ)) = 0 :=
  (noise_estim_loss_nonneg_and_zero 1 1 (fun _ _ => (2 : ℝ))
    (fun _ _ => (2 : ℝ))).2 rfl

/-- Claim C7: for boundary values of `alphas_bar` in `[0,1]` — the
degenerate endpoints 0 and 1 included — the clamped schedule-boundary loss
is a finite value, bounded below by `2·log(1e-7)` and above by `0`; the
`1e-7` clamp keeps both logarithm arguments inside `[1e-7, 1]`. -/
theorem schedule_loss_of_bounded (abFirst abLast : ℝ) (h1 : 0 ≤ abFirst)
    (h2 : abFirst ≤ 1) (h3 : 0 ≤ abLast) (h4 : abLast ≤ 1) :
    2 * Real.log (1e-7 : ℝ) ≤ schedule_loss_of abFirst abLast
    ∧ schedule_loss_of abFirst abLast ≤ 0 := by
  have he : (0 : ℝ) < 1e-7 := by norm_num
  have ha1 : (1e-7 : ℝ) ≤ max (1 - abLast) (1e-7 : ℝ) := le_max_right _ _
  have ha2 : max (1 - abLast) (1e-7 : ℝ) ≤ 1 := by
    apply max_le
    · linarith
    · norm_num
  have hb1 : (1e-7 : ℝ) ≤ max abFirst (1e-7 : ℝ) := le_max_right _ _
  have hb2 : max abFirst (1e-7 : ℝ) ≤ 1 := by
    apply max_le
    · exact h2
    · norm_num
  unfold schedule_loss_of
  constructor
  · have l1 := Real.log_le_log he ha1
    have l2 := Real.log_le_log he hb1
    linarith
  · have l1 := Real.log_nonpos (le_trans he.le ha1) ha2
    have l2 := Real.log_nonpos (le_trans he.le hb1) hb2
    linarith

/-- Witness for C7 at the degenerate boundary `alphas_bar[first] = 0`,
`alphas_bar[last] = 1`. -/
theorem schedule_loss_of_bounded_witness :
    2 * Real.log (1e-7 : ℝ) ≤ schedule_loss_of 0 1
    ∧ schedule_loss_of 0 1 ≤ 0 :=
  schedule_loss_of_bounded 0 1 (by norm_num) (by norm_num) (by norm_num)
    (by norm_num)

/-- Dividing a row by its norm gives a unit vector, provided the norm is
at least the `1e-12` clamp floor of `F.normalize`. -/
theorem l2norm_normalize_of_floor {E : Nat} (v : Fin E → ℝ)
    (h : (1e-12 : ℝ) ≤ l2norm v) : l2norm (normalize_row v) = 1 := by
  have hpos : 0 < l2norm v := lt_of_lt_of_le (by norm_num) h
  have hmax : max (l2norm v) (1e-12 : ℝ) = l2norm v := max_eq_left h
  have hc : 0 < Real.sqrt (∑ k, v k ^ 2) := hpos
  unfold normalize_row
  rw [hmax]
  unfold l2norm
  rw [show (∑ j, (v j / Real.sqrt (∑ k, v k ^ 2)) ^ 2)
      = (∑ j, v j ^ 2) / Real.sqrt (∑ k, v k ^ 2) ^ 2 by
    rw [Finset.sum_div]
    exact Finset.sum_congr rfl fun j _ => div_pow _ _ _]
  rw [Real.sqrt_div (Finset.sum_nonneg fun j _ => sq_nonneg _)]
  rw [Real.sqrt_sq hc.le]
  exact div_self hc.ne'

/-- Counterexample to C5 as stated: when the selected embedding row is the
zero vector, the normalized row passed to the denoiser has L2 norm 0, not
1 (`F.normalize` divides by the clamp floor instead of the norm). -/
theorem processed_spkembed_zero_row_not_unit :
    l2norm (processed_spkembed zeroModel (1 / 2) (fun _ => 0) (fun _ => 0) 0)
      ≠ 1 := by
  have hz : processed_spkembed zeroModel (1 / 2) (fun _ => 0) (fun _ => 0) 0
      = fun _ => 0 := by
    funext j
    unfold processed_spkembed normalize_row
    norm_num [zeroModel]
  rw [hz]
  have h0 : l2norm (fun _ : Fin 1 => (0 : ℝ)) = 0 := by
    unfold l2norm
    simp
  rw [h0]
  norm_num

/-- Claim C5, amended: every row of the post-dropout, post-normalization
speaker embedding matrix has L2 norm exactly 1, provided the selected
pre-normalization row (null embedding or looked-up embedding) has L2 norm
at least the `1e-12` normalization floor — in particular whenever it is
not (nearly) the zero vector; a zero row instead keeps norm 0. -/
theorem processed_spkembed_unit_norm {B L E S : Nat} (M : VCModel B L E S)
    (null_prob : ℚ) (sid : Fin B → Int) (u : Fin B → ℚ) (i : Fin B)
    (h : (1e-12 : ℝ) ≤ l2norm
      (if u i < null_prob then M.nullspk else M.spkembed (sid i))) :
    l2norm (processed_spkembed M null_prob sid u i) = 1 := by
  unfold processed_spkembed
  exact l2norm_normalize_of_floor _ h

/-- A concrete model with a 3-4-5 speaker embedding row, used to witness
the unit-norm theorem. -/
noncomputable def pythagoreanModel : VCModel 1 1 2 0 :=
  ⟨fun _ _ => (fun _ _ => 0, fun _ => 0), fun _ => ![3, 4], ![0, 1],
    fun _ _ _ => fun _ _ => 0, fun _ => 0⟩

/-- Witness for the amended C5: the looked-up row `![3, 4]` has norm 5, so
its normalization has norm 1. -/
theorem processed_spkembed_unit_norm_witness :
    l2norm (processed_spkembed pythagoreanModel 0 (fun _ => 0) (fun _ => 0) 0)
      = 1 := by
  apply processed_spkembed_unit_norm
  rw [if_neg (by norm_num)]
  show (1e-12 : ℝ) ≤ l2norm ![(3 : ℝ), 4]
  have h5 : l2norm ![(3 : ℝ), 4] = 5 := by
    have hs : (∑ j, (![(3 : ℝ), 4]) j ^ 2) = 25 := by
      rw [Fin.sum_univ_two]
      norm_num
    unfold l2norm
    rw [hs, show (25 : ℝ) = 5 ^ 2 by norm_num, Real.sqrt_sq (by norm_num : (0:ℝ) ≤ 5)]
  rw [h5]
  norm_num

/-- Claim C6: each row of the processed speaker embedding is the
normalized null embedding exactly when its uniform draw falls below
`null_prob` (so each row is replaced independently with probability
`null_prob`); with `null_prob = 1` every row equals the normalized null
embedding, and with `null_prob = 0` no row is replaced and each row is
the normalized speaker lookup. -/
theorem processed_spkembed_dropout_endpoints {B L E S : Nat}
    (M : VCModel B L E S) (sid : Fin B → Int) (u : Fin B → ℚ)
    (hu : ∀ i, 0 ≤ u i ∧ u i < 1) :
    (∀ p : ℚ, ∀ i, processed_spkembed M p sid u i
        = normalize_row (if u i < p then M.nullspk else M.spkembed (sid i)))
    ∧ (∀ i, processed_spkembed M 1 sid u i = normalize_row M.nullspk)
    ∧ (∀ i, processed_spkembed M 0 sid u i
        = normalize_row (M.spkembed (sid i))) := by
  refine ⟨fun p i => rfl, fun i => ?_, fun i => ?_⟩
  · unfold processed_spkembed
    rw [if_pos (hu i).2]
  · unfold processed_spkembed
    rw [if_neg (not_lt.mpr (hu i).1)]

/-- Witness for C6 with the in-range draw `1/2`: at `null_prob = 1` the
processed row is the normalized null embedding. -/
theorem processed_spkembed_dropout_endpoints_witness :
    processed_spkembed zeroModel 1 (fun _ => 0) (fun _ => 1 / 2) 0
      = normalize_row zeroModel.nullspk :=
  (processed_spkembed_dropout_endpoints zeroModel (fun _ => 0)
    (fun _ => 1 / 2) (fun i => ⟨by norm_num, by norm_num⟩)).2.1 0

end WGVC
